import Mathlib

/-!
Shallow embedding of `core/dbt/context/providers.py` (name-resolution and
execution-context system): resolver hierarchy (`ref`/`source`/`metric`),
event-time filter derivation, adapter macro dispatch, parse-phase `config`
object, and the stored-query-result map of the provider context.

Python values are translated as follows: optional values become `Option`,
`None`-able strings become `Option String`, timestamps become `Int`,
dictionaries become association lists, exceptions become an `Err` sum
returned through `Except`, and objects reached through external capability
interfaces (manifest, adapter) become records of functions.
-/

namespace Dbt

/-- A declared column of a resource (`ColumnInfo`): name, optional data type,
optional explicit quote setting. -/
structure ColumnInfo where
  name : String
  data_type : Option String
  quote : Option Bool
  deriving DecidableEq

/-- Which config class a target's `config` object is an instance of; the
source checks `isinstance(target.config, (NodeConfig, SeedConfig,
SourceConfig))`. -/
inductive ConfigKind where
  | nodeConfig
  | seedConfig
  | sourceConfig
  | otherConfig
  deriving DecidableEq

/-- The slice of a resource's resolved `config` used by the resolvers:
`event_time`, `materialized`, `incremental_strategy`. -/
structure NodeRunConfig where
  kind : ConfigKind
  event_time : Option String
  materialized : String
  incremental_strategy : String
  deriving DecidableEq

/-- The `quoting` attribute of a target (present on sources); `column` is its
per-column default. -/
structure Quoting where
  column : Option Bool
  deriving DecidableEq

/-- Modelled from the spec: the resource-kind taxonomy (model, snapshot, seed,
unit test, ...). The Python classes `ModelNode`, `SnapshotNode`,
`UnitTestNode` live outside this file's source; the spec's glossary treats
them as distinct node kinds, so the `isinstance` checks of the source become
comparisons of this tag. -/
inductive NodeKind where
  | modelNode
  | snapshotNode
  | seedNode
  | sourceDefinition
  | unitTestNode
  | otherNode
  deriving DecidableEq

/-- An entry of a node's recorded reference list (`RefArgs`). -/
structure RefArgs where
  package : Option String
  name : String
  version : Option String
  deriving DecidableEq

/-- A microbatch batch assigned to a model (`model.batch`), carrying its
event-time window. -/
structure BatchWindow where
  event_time_start : Int
  event_time_end : Int
  deriving DecidableEq

/-- A manifest node / resource, restricted to the attributes the embedded
operations read or write. `quoting = none` models the attribute being absent
(`hasattr` false); `defer_relation = none` models absent-or-falsy. -/
structure Node where
  unique_id : String
  package_name : String
  kind : NodeKind
  config : NodeRunConfig
  columns : List ColumnInfo
  quoting : Option Quoting
  refs : List RefArgs
  batch : Option BatchWindow
  is_ephemeral_model : Bool
  defer_relation : Option String
  depends_on_nodes : List String
  ctes : List (String × Option String)
  group : Option String
  deriving DecidableEq

/-- The `--sample` window of the run's invocation arguments. -/
structure SampleWindow where
  start : Int
  end_ : Int
  deriving DecidableEq

/-- The invocation arguments read by the resolvers (`config.args`). -/
structure Args where
  EMPTY : Bool
  sample : Option SampleWindow
  defer : Bool
  favor_state : Bool
  deriving DecidableEq

/-- The run configuration slice used by the resolvers. -/
structure RunConfig where
  project_name : String
  args : Args
  dependencies : List String
  deriving DecidableEq

/-- The `EventTimeFilter` value type: field name plus `[start, end)` window. -/
structure EventTimeFilter where
  field_name : Option String
  start : Int
  end_ : Int
  deriving DecidableEq

/-- Result of `manifest.resolve_ref`: a `Disabled` wrapper or a found node;
`none` at the call site models an absent target. -/
inductive RefLookupResult where
  | disabled
  | found (target : Node)
  deriving DecidableEq

/-- The read-only manifest capability consumed by the resolvers, as a record
of lookup functions. -/
structure Manifest where
  resolve_ref : Node → String → Option String → Option String → String → String →
    Option RefLookupResult
  use_microbatch_batches : String → Bool
  is_invalid_private_ref : Node → Node → List String → Bool
  is_invalid_protected_ref : Node → Node → List String → Bool

/-- All typed errors raised along the embedded code paths. -/
inductive Err where
  | refArgsError (nodeId : String) (args : List String)
  | targetNotFound (nodeId : String) (targetName : String) (targetKind : String)
      (targetPackage : Option String) (targetVersion : Option String) (disabled : Bool)
  | referenceError (uniqueId : String) (refUniqueId : String) (access : String) (scope : String)
  | refBadContext (nodeId : String) (args : RefArgs)
  | macroResultAlreadyLoaded (name : String)
  | conflictingConfigKeys (oldKey : String) (newKey : String) (nodeId : String)
  | inlineModelConfig (nodeId : String)
  | missingContextConfig
  | dotInMacroName (suggestNamespace : String) (suggestName : String)
  | macroDispatchArg (name : String)
  | dispatchNotFound (macroName : String) (macroNamespace : Option String)
      (searched : List String)
  deriving DecidableEq

/-- Embeds `Column.quoted` of the base adapter column class: the name wrapped in
double quotes. -/
def quotedName (s : String) : String := "\"" ++ s ++ "\""

/-- Python truthiness of an optional string (`if target.config.event_time:`):
false for `None` and for the empty string. -/
def eventTimeTruthy : Option String → Bool
  | none => false
  | some s => !(s == "")

/-- Embeds `isinstance(target.config, (NodeConfig, SeedConfig, SourceConfig))`. -/
def isEventTimeConfig : ConfigKind → Bool
  | .nodeConfig => true
  | .seedConfig => true
  | .sourceConfig => true
  | .otherConfig => false

/-- Embeds `isinstance(self.model, (ModelNode, SnapshotNode))`. -/
def isModelOrSnapshot : NodeKind → Bool
  | .modelNode => true
  | .snapshotNode => true
  | _ => false

/-- Embeds `BaseResolver._resolve_event_time_field_name`: scan the target's columns
for the first one whose name equals the configured event-time column name
(`column_info.name == target.config.event_time`); on a match take the
column's explicit `quote` if set, else the target's `quoting.column` default
if the attribute chain is present and set, else `False`; return the quoted
column name when quoting applies, else the raw configured value. -/
def resolve_event_time_field_name (target : Node) : Option String :=
  match target.columns.find? (fun ci => decide (some ci.name = target.config.event_time)) with
  | some ci =>
    let should_quote :=
      match ci.quote with
      | some b => b
      | none =>
        match target.quoting with
        | some q =>
          match q.column with
          | some b => b
          | none => false
        | none => false
    if should_quote then some (quotedName ci.name) else target.config.event_time
  | none => target.config.event_time

/-- Embeds `BaseResolver.resolve_event_time_filter`: produce an `EventTimeFilter`
only when the target's config is an event-time-capable config class with a
truthy `event_time` and the requesting model is a model or snapshot; then,
for a microbatch incremental model with an assigned batch, intersect with the
sample window in sample mode or use the batch window verbatim; otherwise, in
sample mode, use the sample window directly; else no filter. -/
def resolve_event_time_filter (cfg : RunConfig) (manifest : Manifest)
    (model target : Node) : Option EventTimeFilter :=
  let sample_mode := cfg.args.sample.isSome
  let field_name := resolve_event_time_field_name target
  if isEventTimeConfig target.config.kind
      && eventTimeTruthy target.config.event_time
      && isModelOrSnapshot model.kind then
    if (model.kind == NodeKind.modelNode)
        && (model.config.materialized == "incremental")
        && (model.config.incremental_strategy == "microbatch")
        && manifest.use_microbatch_batches cfg.project_name
        && model.batch.isSome then
      match model.batch with
      | some batch =>
        match cfg.args.sample with
        | some sw =>
          let start := if sw.start > batch.event_time_start then sw.start
            else batch.event_time_start
          let end_ := if sw.end_ < batch.event_time_end then sw.end_
            else batch.event_time_end
          some { field_name := field_name, start := start, end_ := end_ }
        | none =>
          some { field_name := field_name, start := batch.event_time_start,
                 end_ := batch.event_time_end }
      | none => none
    else if sample_mode then
      match cfg.args.sample with
      | some sw => some { field_name := field_name, start := sw.start, end_ := sw.end_ }
      | none => none
    else
      none
  else
    none

/-- Materialization style of a relation handle returned by a resolver. -/
inductive RelationStyle where
  | ordinary
  | ephemeral
  | deferred
  deriving DecidableEq

/-- A relation handle (`RelationProxy.create_from` /
`create_ephemeral_from`): the identity it was built from, plus the optional
row limit and event-time filter attached at creation. -/
structure Relation where
  node_id : String
  limit : Option Nat
  event_time_filter : Option EventTimeFilter
  style : RelationStyle
  deriving DecidableEq

/-- Embeds `Relation.create_from(config, node)` at parse phase: a relation for the
given node with no limit and no filter. -/
def Relation.createFrom (node_id : String) : Relation :=
  { node_id := node_id, limit := none, event_time_filter := none, style := .ordinary }

/-- Embeds `BaseResolver.resolve_limit`: `0` when the run was invoked with the
`--empty` flag, else no limit. -/
def resolve_limit (args : Args) : Option Nat :=
  if args.EMPTY then some 0 else none

/-- Embeds `RuntimeUnitTestRefResolver.resolve_limit`: always `None`, ignoring the
`--empty` flag. -/
def runtimeUnitTest_resolve_limit (_args : Args) : Option Nat :=
  none

/-- Embeds `kwargs.get("version") or kwargs.get("v")`: the `version` keyword when
truthy (non-empty), else the `v` keyword. -/
def effectiveKwVersion (kwVersion kwV : Option String) : Option String :=
  match kwVersion with
  | some s => if s == "" then kwV else some s
  | none => kwV

/-- Embeds `ParseRefResolver.resolve`: append one `RefArgs` entry to the requesting
node's reference list and build a relation for the requesting node itself. -/
def parseRefResolve (model : Node) (name : String) (package : Option String)
    (version : Option String) : Node × Relation :=
  let entry : RefArgs := { package := package, name := name, version := version }
  let model2 := { model with refs := model.refs ++ [entry] }
  (model2, Relation.createFrom model2.unique_id)

/-- Embeds `BaseRefResolver.__call__` specialized to the parse-phase resolver: arity
dispatch over the positional arguments, keyword version extraction, then
`ParseRefResolver.resolve`. The manifest held by the resolver is passed but
never consulted on this path. -/
def parseRefCall (_manifest : Manifest) (model : Node) (args : List String)
    (kwVersion kwV : Option String) : Except Err (Node × Relation) :=
  match args with
  | [name] => .ok (parseRefResolve model name none (effectiveKwVersion kwVersion kwV))
  | [package, name] =>
    .ok (parseRefResolve model name (some package) (effectiveKwVersion kwVersion kwV))
  | _ => .error (.refArgsError model.unique_id args)

/-- The runtime surroundings of a runtime ref resolution: the manifest, the
run configuration, the global selected-resources set, and the adapter's
relation-existence probe. -/
structure RuntimeEnv where
  manifest : Manifest
  cfg : RunConfig
  selected_resources : List String
  adapter_get_relation : Node → Bool

/-- Embeds `RuntimeRefResolver.create_relation`: ephemeral targets register a CTE on
the requesting model and yield an ephemeral relation; deferrable targets
(defer flag set, defer relation present, and either favor-state with the
target unselected or a failed existence probe) yield the deferred relation;
otherwise the ordinary relation. All branches attach the same limit and
event-time filter. -/
def createRelation (env : RuntimeEnv) (limit : Option Nat) (model target : Node) :
    Node × Relation :=
  if target.is_ephemeral_model then
    ({ model with ctes := model.ctes ++ [(target.unique_id, none)] },
      { node_id := target.unique_id, limit := limit,
        event_time_filter := resolve_event_time_filter env.cfg env.manifest model target,
        style := .ephemeral })
  else if target.defer_relation.isSome
      && env.cfg.args.defer
      && ((env.cfg.args.favor_state
            && !(env.selected_resources.contains target.unique_id))
          || !(env.adapter_get_relation target)) then
    (model,
      { node_id := target.defer_relation.getD "", limit := limit,
        event_time_filter := resolve_event_time_filter env.cfg env.manifest model target,
        style := .deferred })
  else
    (model,
      { node_id := target.unique_id, limit := limit,
        event_time_filter := resolve_event_time_filter env.cfg env.manifest model target,
        style := .ordinary })

/-- Embeds `RuntimeRefResolver.resolve`, parameterized by the resolver's
`resolve_limit` value: manifest lookup, target-not-found on absent or
disabled targets, private/protected access checks, declared-dependency
validation, then relation construction. -/
def runtimeRefResolveWith (limit : Option Nat) (env : RuntimeEnv) (model : Node)
    (name : String) (package : Option String) (version : Option String) :
    Except Err (Node × Relation) :=
  match env.manifest.resolve_ref model name package version env.cfg.project_name
      model.package_name with
  | none => .error (.targetNotFound model.unique_id name "node" package version false)
  | some .disabled => .error (.targetNotFound model.unique_id name "node" package version true)
  | some (.found target) =>
    if env.manifest.is_invalid_private_ref model target env.cfg.dependencies then
      .error (.referenceError model.unique_id target.unique_id "private"
        (target.group.getD "None"))
    else if env.manifest.is_invalid_protected_ref model target env.cfg.dependencies then
      .error (.referenceError model.unique_id target.unique_id "protected"
        target.package_name)
    else if !(model.depends_on_nodes.contains target.unique_id) then
      .error (.refBadContext model.unique_id
        { package := package, name := name, version := version })
    else
      .ok (createRelation env limit model target)

/-- Embeds `RuntimeRefResolver.resolve` with the base resolver's limit. -/
def runtimeRefResolve (env : RuntimeEnv) (model : Node) (name : String)
    (package : Option String) (version : Option String) : Except Err (Node × Relation) :=
  runtimeRefResolveWith (resolve_limit env.cfg.args) env model name package version

/-- Embeds `RuntimeUnitTestRefResolver.resolve`: as runtime, with the unit-test
resolver's limit override. -/
def runtimeUnitTestRefResolve (env : RuntimeEnv) (model : Node) (name : String)
    (package : Option String) (version : Option String) : Except Err (Node × Relation) :=
  runtimeRefResolveWith (runtimeUnitTest_resolve_limit env.cfg.args) env model name
    package version

/-- The adapter/config capabilities consumed by `BaseDatabaseWrapper`
dispatch: the adapter-type name chain (`get_adapter_type_names`: concrete
type then parent types in declared order), the current project name, the
project's dependencies, the per-package macro search order, and the macro
namespace lookup (`none` models the caught `CompilationError`). -/
structure DispatchCtx where
  adapterTypeNames : List String
  project_name : String
  dependencies : List String
  getMacroSearchOrder : String → Option (List String)
  getFromPackage : Option String → String → Option String

/-- Embeds `BaseDatabaseWrapper._get_adapter_macro_prefixes`: the adapter type
chain followed by the literal `"default"`. -/
def adapterMacroPrefixList (ctx : DispatchCtx) : List String :=
  ctx.adapterTypeNames ++ ["default"]

/-- Embeds `BaseDatabaseWrapper._get_search_packages`: no namespace searches the
unqualified namespace only; a namespace with a truthy configured macro
search order uses that order; else a namespace that is a known dependency
searches current project then the namespace; else the unqualified namespace. -/
def getSearchPackages (ctx : DispatchCtx) (ns : Option String) : List (Option String) :=
  match ns with
  | none => [none]
  | some s =>
    match ctx.getMacroSearchOrder s with
    | some (p :: ps) => (p :: ps).map some
    | _ =>
      if ctx.dependencies.contains s then [some ctx.project_name, some s]
      else [none]

/-- Embeds `"." in macro_name`: the name's characters contain a dot. -/
def containsDot (name : String) : Bool :=
  name.toList.contains '.'

/-- Embeds `macro_name.split(".", 1)`: the part before the first dot and the rest
after it (which may itself contain dots). -/
def splitOnFirstDot (name : String) : String × String :=
  ((name.toList.takeWhile (fun c => !(c == '.'))).asString,
    ((name.toList.dropWhile (fun c => !(c == '.'))).drop 1).asString)

/-- How an attempted lookup is recorded in the dispatch error: the search
name alone for the unqualified namespace, else package-qualified. -/
def attemptLabel (pkg : Option String) (searchName : String) : String :=
  match pkg with
  | none => searchName
  | some p => p ++ "." ++ searchName

/-- The inner prefix loop of `dispatch`: for each prefix, record the attempt,
and stop at the first macro the namespace lookup finds. -/
def dispatchInnerLoop (lookup : Option String → String → Option String)
    (macroName : String) (pkg : Option String) :
    List String → List String → Option String × List String
  | [], attempts => (none, attempts)
  | pre :: rest, attempts =>
    let searchName := pre ++ "__" ++ macroName
    let attempts2 := attempts ++ [attemptLabel pkg searchName]
    match lookup pkg searchName with
    | some m => (some m, attempts2)
    | none => dispatchInnerLoop lookup macroName pkg rest attempts2

/-- The outer package loop of `dispatch`: run the prefix loop per package,
return the first match, and fail with the accumulated attempts when every
combination missed. -/
def dispatchOuterLoop (lookup : Option String → String → Option String)
    (macroName : String) (ns : Option String) (prefixList : List String) :
    List (Option String) → List String → Except Err String
  | [], attempts => .error (.dispatchNotFound macroName ns attempts)
  | pkg :: rest, attempts =>
    match dispatchInnerLoop lookup macroName pkg prefixList attempts with
    | (some m, _) => .ok m
    | (none, attempts2) => dispatchOuterLoop lookup macroName ns prefixList rest attempts2

/-- Embeds `BaseDatabaseWrapper.dispatch`: reject macro names containing a dot with
a suggestion of the two-argument form, reject the deprecated `packages`
argument, then scan package-major and prefix-minor for
`"{prefix}__{macro_name}"`. -/
def dispatch (ctx : DispatchCtx) (macroName : String) (macroNamespace : Option String)
    (packagesArg : Option (List String)) : Except Err String :=
  if containsDot macroName then
    .error (.dotInMacroName (splitOnFirstDot macroName).1 (splitOnFirstDot macroName).2)
  else if packagesArg.isSome then
    .error (.macroDispatchArg macroName)
  else
    dispatchOuterLoop ctx.getFromPackage macroName macroNamespace
      (adapterMacroPrefixList ctx) (getSearchPackages ctx macroNamespace) []

/-- The full ordered list of `(package, prefixed-name)` combinations that
`dispatch` tries: package-major, prefix-minor. -/
def dispatchAttemptPairs (ctx : DispatchCtx) (macroName : String) (ns : Option String) :
    List (Option String × String) :=
  (getSearchPackages ctx ns).flatMap
    (fun pkg => (adapterMacroPrefixList ctx).map (fun pre => (pkg, pre ++ "__" ++ macroName)))

/-- A stored query result (`AttrDict` of `store_result`): the adapter
response plus the result table rows. -/
structure StoredResult where
  response : String
  data : List (List String)
  deriving DecidableEq

/-- The provider context's `sql_results` map, as an association list; a key
mapped to `none` is the consumed sentinel, distinct from an absent key. -/
abbrev SqlResults : Type := List (String × Option StoredResult)

/-- Dictionary membership plus value: `none` when the key is absent. -/
def sqlLookup (st : SqlResults) (k : String) : Option (Option StoredResult) :=
  (List.find? (fun p => p.1 == k) st).map (fun p => p.2)

/-- Dictionary assignment `self.sql_results[name] = v`: replace the entry in
place, or append when the key is new. -/
def sqlSet : SqlResults → String → Option StoredResult → SqlResults
  | [], k, v => [(k, v)]
  | p :: rest, k, v => if p.1 == k then (k, v) :: rest else p :: sqlSet rest k v

/-- Embeds `ProviderContext.load_result`: an absent key yields `None` without error;
the key `"main"` yields its stored entry without consuming it; a key mapped
to the consumed sentinel raises the already-loaded error; otherwise the
stored value is returned and the key is set to the sentinel. -/
def load_result (name : String) (st : SqlResults) :
    Except Err (Option StoredResult × SqlResults) :=
  match sqlLookup st name with
  | some v =>
    if name == "main" then .ok (v, st)
    else
      match v with
      | none => .error (.macroResultAlreadyLoaded name)
      | some r => .ok (some r, sqlSet st name none)
  | none => .ok (none, st)

/-- Embeds `ProviderContext.store_result`: store the response and table (an absent
table becomes the empty table) under the key, returning the empty string. -/
def store_result (name : String) (response : String)
    (agate_table : Option (List (List String))) (st : SqlResults) : String × SqlResults :=
  ("", sqlSet st name (some { response := response, data := agate_table.getD [] }))

/-- An argument dictionary of a `config(...)` call, as an association list. -/
abbrev CDict : Type := List (String × String)

/-- Embeds `key in config` on an argument dictionary. -/
def dictContains (d : CDict) (k : String) : Bool :=
  List.any d (fun p => p.1 == k)

/-- Value lookup on an argument dictionary. -/
def dictGet (d : CDict) (k : String) : Option String :=
  (List.find? (fun p => p.1 == k) d).map (fun p => p.2)

/-- Embeds the removal effect of `config.pop(key)` on an argument dictionary. -/
def dictRemove (d : CDict) (k : String) : CDict :=
  List.filter (fun p => !(p.1 == k)) d

/-- One step of `ParseConfigObject._transform_config`: when the legacy
underscore spelling is present, fail if the hyphenated spelling is also
present, else move the value to the hyphenated key. -/
def transformHookKey (oldKey newKey : String) (nodeId : String) (d : CDict) :
    Except Err CDict :=
  if dictContains d oldKey then
    if dictContains d newKey then .error (.conflictingConfigKeys oldKey newKey nodeId)
    else
      match dictGet d oldKey with
      | some v => .ok (dictRemove d oldKey ++ [(newKey, v)])
      | none => .ok d
  else
    .ok d

/-- Embeds `ParseConfigObject._transform_config`: normalize `pre_hook` then
`post_hook`; a raised conflicting-keys error propagates. -/
def transform_config (nodeId : String) (d : CDict) : Except Err CDict :=
  match transformHookKey "pre_hook" "pre-hook" nodeId d with
  | .error e => .error e
  | .ok d1 => transformHookKey "post_hook" "post-hook" nodeId d1

/-- The parse-phase `ContextConfig` accumulator: pending config calls and
unrendered config calls. -/
structure ContextConfig where
  config_calls : List CDict
  unrendered_config_calls : List CDict
  deriving DecidableEq

/-- Embeds `ParseConfigObject.__call__`: exactly one positional mapping or pure
keyword arguments (else a shape error naming the node); hook-key
normalization (which may raise the conflicting-keys error); a missing
context config is a fatal internal error; optionally record the statically
parsed unrendered config (when the flag is set and the parse produced a
truthy dictionary); accumulate the options; return the empty string. -/
def parseConfigCall (nodeId : String) (context_config : Option ContextConfig)
    (moreUnrenderedFlag : Bool) (staticUnrendered : Option CDict)
    (args : List CDict) (kwargs : CDict) : Except Err (String × ContextConfig) :=
  match
    (if args.length == 1 && List.isEmpty kwargs then .ok (args.headD [])
     else if args.isEmpty && !(List.isEmpty kwargs) then .ok kwargs
     else Except.error (Err.inlineModelConfig nodeId) : Except Err CDict) with
  | .error e => .error e
  | .ok opts0 =>
    match transform_config nodeId opts0 with
    | .error e => .error e
    | .ok opts =>
      match context_config with
      | none => .error .missingContextConfig
      | some cc =>
        let cc2 :=
          if moreUnrenderedFlag then
            match staticUnrendered with
            | some (u :: us) =>
              { cc with unrendered_config_calls := cc.unrendered_config_calls ++ [u :: us] }
            | _ => cc
          else cc
        .ok ("", { cc2 with config_calls := cc2.config_calls ++ [opts] })

/-! Spec-level restatements used to settle claim C1. -/

/-- The spec's quoting cascade, written from the spec's words: quoting is
taken from the column's explicit quote setting if present; else it falls
back to the target's own quoting-policy default for columns; else unquoted. -/
def specQuoteCascade (columnQuote : Option Bool) (targetDefault : Option Bool) : Bool :=
  match columnQuote with
  | some b => b
  | none => targetDefault.getD false

/-- The event-time field name as the (amended) spec describes it: with a
configured event-time column name, scan the declared columns for one whose
name matches it; quote per `specQuoteCascade` when a column entry is found;
use the raw configured name unquoted when none is found. -/
def specEventTimeFieldName (target : Node) : Option String :=
  match target.config.event_time with
  | none => target.config.event_time
  | some et =>
    match target.columns.find? (fun ci => decide (ci.name = et)) with
    | none => some et
    | some ci =>
      if specQuoteCascade ci.quote ((target.quoting.map Quoting.column).getD none) then
        some (quotedName et)
      else
        some et

/-- Claim C1's literal quoting rule: the name is quoted when the column's
explicit quote setting is present and true, else when the target's
quoting-policy default for columns is present and true, else unquoted. -/
def claimC1QuoteRule (columnQuote : Option Bool) (targetDefault : Option Bool) : Bool :=
  if columnQuote = some true then true
  else if targetDefault = some true then true
  else false

/-- The event-time field name under claim C1's literal quoting rule. -/
def claimC1EventTimeFieldName (target : Node) : Option String :=
  match target.config.event_time with
  | none => target.config.event_time
  | some et =>
    match target.columns.find? (fun ci => decide (ci.name = et)) with
    | none => some et
    | some ci =>
      if claimC1QuoteRule ci.quote ((target.quoting.map Quoting.column).getD none) then
        some (quotedName et)
      else
        some et

/-! Concrete data used by witnesses and counterexamples. -/

/-- A manifest whose lookups find nothing and whose access checks pass. -/
def manifestW : Manifest :=
  { resolve_ref := fun _ _ _ _ _ _ => none
    use_microbatch_batches := fun _ => true
    is_invalid_private_ref := fun _ _ _ => false
    is_invalid_protected_ref := fun _ _ _ => false }

/-- A plain run configuration with no sample window and no flags. -/
def cfgW : RunConfig :=
  { project_name := "proj"
    args := { EMPTY := false, sample := none, defer := false, favor_state := false }
    dependencies := [] }

/-- A plain model node with no event-time configuration. -/
def nodeW : Node :=
  { unique_id := "model.proj.a"
    package_name := "proj"
    kind := .modelNode
    config := { kind := .nodeConfig, event_time := none, materialized := "table",
                incremental_strategy := "" }
    columns := []
    quoting := none
    refs := []
    batch := none
    is_ephemeral_model := false
    defer_relation := none
    depends_on_nodes := []
    ctes := []
    group := none }

/-- C1's counterexample target: a matching column with an explicit
`quote: false`, against a target whose column-quoting default is true. -/
def tgtC1 : Node :=
  { nodeW with
    unique_id := "source.proj.s.t"
    config := { kind := .sourceConfig, event_time := some "et", materialized := "",
                incremental_strategy := "" }
    columns := [{ name := "et", data_type := none, quote := some false }]
    quoting := some { column := some true } }

/-- C3's run configuration: sample window `[0, 10)`. -/
def cfgC3 : RunConfig :=
  { project_name := "proj"
    args := { EMPTY := false, sample := some { start := 0, end_ := 10 }, defer := false,
              favor_state := false }
    dependencies := [] }

/-- C3's requesting model: microbatch incremental with batch `[5, 20)`. -/
def modelC3 : Node :=
  { nodeW with
    config := { kind := .nodeConfig, event_time := none, materialized := "incremental",
                incremental_strategy := "microbatch" }
    batch := some { event_time_start := 5, event_time_end := 20 } }

/-- C3's target: declares the event-time column `et`. -/
def tgtC3 : Node :=
  { nodeW with
    unique_id := "model.proj.t"
    config := { kind := .nodeConfig, event_time := some "et", materialized := "table",
                incremental_strategy := "" } }

/-- A runtime environment around `manifestW` (lookups find nothing). -/
def envC7 : RuntimeEnv :=
  { manifest := manifestW
    cfg := cfgW
    selected_resources := []
    adapter_get_relation := fun _ => true }

/-- C8's target: a plain refable model that itself declares an event-time
column. -/
def tgtC8 : Node :=
  { nodeW with
    unique_id := "model.proj.t"
    config := { kind := .nodeConfig, event_time := some "et", materialized := "table",
                incremental_strategy := "" } }

/-- C8's requesting node: a unit-test node depending on the target. -/
def modelC8 : Node :=
  { nodeW with
    unique_id := "unit_test.proj.ut"
    kind := .unitTestNode
    depends_on_nodes := ["model.proj.t"] }

/-- C8's environment: the lookup resolves to `tgtC8` and the run carries the
`--empty` flag. -/
def envC8 : RuntimeEnv :=
  { manifest :=
      { resolve_ref := fun _ _ _ _ _ _ => some (.found tgtC8)
        use_microbatch_batches := fun _ => false
        is_invalid_private_ref := fun _ _ _ => false
        is_invalid_protected_ref := fun _ _ _ => false }
    cfg := { project_name := "proj"
             args := { EMPTY := true, sample := none, defer := false, favor_state := false }
             dependencies := [] }
    selected_resources := []
    adapter_get_relation := fun _ => true }

/-- The relation C8's witness resolution produces. -/
def relC8 : Relation :=
  { node_id := "model.proj.t", limit := none, event_time_filter := none, style := .ordinary }

/-- C6's witness dispatch context: adapter type `postgres`, macro `m`
implemented only as `default__m` in the unqualified namespace. -/
def ctxC6 : DispatchCtx :=
  { adapterTypeNames := ["postgres"]
    project_name := "proj"
    dependencies := []
    getMacroSearchOrder := fun _ => none
    getFromPackage := fun pkg sn =>
      if pkg.isNone && (sn == "default__m") then some "impl" else none }

/-- C10's witness state: a stored result live under the key `main`. -/
def stC10 : SqlResults := [("main", some { response := "r", data := [] })]

/-- An empty parse-phase config accumulator for C9's witness. -/
def ccW : ContextConfig := { config_calls := [], unrendered_config_calls := [] }

/-! Helper lemmas. -/

theorem if_gt_eq_max (a c : Int) : (if a > c then a else c) = max a c := by
  rcases le_or_lt a c with h | h
  · rw [if_neg (not_lt.mpr h), max_eq_right h]
  · rw [if_pos h, max_eq_left h.le]

theorem if_lt_eq_min (a c : Int) : (if a < c then a else c) = min a c := by
  rcases le_or_lt c a with h | h
  · rw [if_neg (not_lt.mpr h), min_eq_right h]
  · rw [if_pos h, min_eq_left h.le]

theorem sqlLookup_sqlSet_self (st : SqlResults) (k : String) (v : Option StoredResult) :
    sqlLookup (sqlSet st k v) k = some v := by
  induction st with
  | nil => simp [sqlSet, sqlLookup]
  | cons p rest ih =>
    by_cases h : (p.1 == k) = true
    · simp [sqlSet, h, sqlLookup]
    · simp only [sqlSet, h, if_false, Bool.false_eq_true, if_neg]
      simpa [sqlLookup, List.find?, h] using ih

/-- The event-time filter is absent whenever the requesting node is not a
model or snapshot. -/
theorem etf_none_of_not_model_or_snapshot (cfg : RunConfig) (manifest : Manifest)
    (model target : Node) (h : isModelOrSnapshot model.kind = false) :
    resolve_event_time_filter cfg manifest model target = none := by
  simp [resolve_event_time_filter, h]

/-- Field projections of `createRelation`: every branch attaches the given
limit and the target's event-time filter. -/
theorem createRelation_fields (env : RuntimeEnv) (limit : Option Nat)
    (model target : Node) :
    (createRelation env limit model target).2.limit = limit ∧
      (createRelation env limit model target).2.event_time_filter =
        resolve_event_time_filter env.cfg env.manifest model target := by
  unfold createRelation
  split
  · exact ⟨rfl, rfl⟩
  · split
    · exact ⟨rfl, rfl⟩
    · exact ⟨rfl, rfl⟩

/-! Claim theorems. -/

/-- Claim C2: resolving the event-time filter yields a filter only when the
target's configuration declares a (truthy) event-time column and the
requesting resource is a model or snapshot; in particular, with no declared
event-time column, resolution completes normally (the embedded path is
total, so no error is raised) with no filter. -/
theorem claim_C2 (cfg : RunConfig) (manifest : Manifest) (model target : Node) :
    (∀ f, resolve_event_time_filter cfg manifest model target = some f →
      eventTimeTruthy target.config.event_time = true ∧
        isModelOrSnapshot model.kind = true)
    ∧ (target.config.event_time = none →
      resolve_event_time_filter cfg manifest model target = none) := by
  constructor
  · intro f hf
    by_cases h : (isEventTimeConfig target.config.kind
        && eventTimeTruthy target.config.event_time
        && isModelOrSnapshot model.kind) = true
    · simp only [Bool.and_eq_true] at h
      exact ⟨h.1.2, h.2⟩
    · simp only [resolve_event_time_filter, h, Bool.false_eq_true, if_false, if_neg] at hf
      cases hf
  · intro h
    simp [resolve_event_time_filter, h, eventTimeTruthy]

/-- Witness for C2 at a concrete target with no event-time column. -/
theorem claim_C2_witness :
    nodeW.config.event_time = none ∧
      resolve_event_time_filter cfgW manifestW nodeW nodeW = none :=
  ⟨rfl, (claim_C2 cfgW manifestW nodeW nodeW).2 rfl⟩

/-- Claim C3: for a microbatch incremental model with an assigned batch
window, sampled mode yields the intersection of the sample and batch windows
(start clamped up, end clamped down), and non-sampled mode yields the batch
window exactly. -/
theorem claim_C3 (cfg : RunConfig) (manifest : Manifest) (model target : Node)
    (b : BatchWindow)
    (hkind : model.kind = NodeKind.modelNode)
    (hmat : model.config.materialized = "incremental")
    (hstrat : model.config.incremental_strategy = "microbatch")
    (hmb : manifest.use_microbatch_batches cfg.project_name = true)
    (hbatch : model.batch = some b)
    (hcfg : isEventTimeConfig target.config.kind = true)
    (het : eventTimeTruthy target.config.event_time = true) :
    (∀ s, cfg.args.sample = some s →
      resolve_event_time_filter cfg manifest model target =
        some { field_name := resolve_event_time_field_name target,
               start := max s.start b.event_time_start,
               end_ := min s.end_ b.event_time_end })
    ∧ (cfg.args.sample = none →
      resolve_event_time_filter cfg manifest model target =
        some { field_name := resolve_event_time_field_name target,
               start := b.event_time_start, end_ := b.event_time_end }) := by
  constructor
  · intro s hs
    simp [resolve_event_time_filter, hkind, hmat, hstrat, hmb, hbatch, hs, hcfg, het,
      isModelOrSnapshot, if_gt_eq_max, if_lt_eq_min]
  · intro hs
    simp [resolve_event_time_filter, hkind, hmat, hstrat, hmb, hbatch, hs, hcfg, het,
      isModelOrSnapshot]

/-- Witness for C3: sample `[0, 10)` against batch `[5, 20)` gives `[5, 10)`. -/
theorem claim_C3_witness :
    resolve_event_time_filter cfgC3 manifestW modelC3 tgtC3 =
      some { field_name := some "et", start := 5, end_ := 10 } := by
  have h := (claim_C3 cfgC3 manifestW modelC3 tgtC3
      { event_time_start := 5, event_time_end := 20 }
      rfl rfl rfl rfl rfl rfl (by decide)).1 { start := 0, end_ := 10 } rfl
  exact h.trans (by decide)

/-- Claim C7: a runtime ref resolution whose manifest lookup yields no target
or a `Disabled` target fails with a target-not-found error of kind `node`
carrying the attempted name, package and version, with the disabled flag set
exactly when the target was `Disabled`. -/
theorem claim_C7 (env : RuntimeEnv) (model : Node) (name : String)
    (package version : Option String)
    (h : env.manifest.resolve_ref model name package version env.cfg.project_name
        model.package_name = none ∨
      env.manifest.resolve_ref model name package version env.cfg.project_name
        model.package_name = some RefLookupResult.disabled) :
    runtimeRefResolve env model name package version =
      .error (.targetNotFound model.unique_id name "node" package version
        (decide (env.manifest.resolve_ref model name package version env.cfg.project_name
          model.package_name = some RefLookupResult.disabled))) := by
  rcases h with h | h <;> simp [runtimeRefResolve, runtimeRefResolveWith, h]

/-- Witness for C7 at a concrete environment whose lookup finds nothing. -/
theorem claim_C7_witness :
    runtimeRefResolve envC7 nodeW "missing" none none =
      .error (.targetNotFound "model.proj.a" "missing" "node" none none false) :=
  claim_C7 envC7 nodeW "missing" none none (Or.inl rfl)

/-- Claim C10: the key `main` is exempt from the consumed-once contract:
whenever `main` is live in the stored-result map, `load_result` returns its
entry and leaves the map unchanged, so repeated loads never raise. -/
theorem claim_C10 (st : SqlResults) (v : Option StoredResult)
    (h : sqlLookup st "main" = some v) :
    load_result "main" st = .ok (v, st) := by
  simp [load_result, h]

/-- Witness for C10 at a concrete map holding a result under `main`. -/
theorem claim_C10_witness :
    load_result "main" stC10 = .ok (some { response := "r", data := [] }, stC10) :=
  claim_C10 stC10 (some { response := "r", data := [] }) rfl

/-- Counterexample to C5 as stated (`for every key x`): after storing under
`main`, the first load returns the value with the map unchanged (the key
still maps to the live value, not the consumed sentinel), so a repeated load
returns the value again instead of raising already-consumed. -/
theorem claim_C5_counterexample :
    load_result "main" (store_result "main" "r" none []).2 =
        .ok (some { response := "r", data := [] }, (store_result "main" "r" none []).2)
    ∧ sqlLookup (store_result "main" "r" none []).2 "main" =
        some (some { response := "r", data := [] })
    ∧ load_result "main" (store_result "main" "r" none []).2 ≠
        .error (.macroResultAlreadyLoaded "main") :=
  ⟨rfl, rfl, fun h => Except.noConfusion h⟩

/-- Claim C5 (amended: every key other than `main`): store-then-load returns
the stored value and sets the key to the consumed sentinel; a second load
raises already-consumed naming the key; loading a never-stored key returns
`None` without error; the consumed state keeps the key live, mapped to the
explicit `None` sentinel, distinct from an absent key. -/
theorem claim_C5_amended (k resp : String) (tbl : Option (List (List String)))
    (st : SqlResults) (hk : k ≠ "main") :
    load_result k (store_result k resp tbl st).2 =
        .ok (some { response := resp, data := tbl.getD [] },
          sqlSet (store_result k resp tbl st).2 k none)
    ∧ load_result k (sqlSet (store_result k resp tbl st).2 k none) =
        .error (.macroResultAlreadyLoaded k)
    ∧ sqlLookup (sqlSet (store_result k resp tbl st).2 k none) k = some none
    ∧ (∀ k2 st2, sqlLookup st2 k2 = (none : Option (Option StoredResult)) →
        load_result k2 st2 = .ok (none, st2)) := by
  have hbeq : (k == "main") = false := by
    simpa using hk
  refine ⟨?_, ?_, ?_, ?_⟩
  · simp [load_result, store_result, sqlLookup_sqlSet_self, hbeq]
  · simp [load_result, sqlLookup_sqlSet_self, hbeq]
  · exact sqlLookup_sqlSet_self _ _ _
  · intro k2 st2 h
    simp [load_result, h]

/-- Witness for the amended C5 at the concrete key `x`. -/
theorem claim_C5_amended_witness :
    load_result "x" (store_result "x" "r" none []).2 =
      .ok (some { response := "r", data := [] },
        sqlSet (store_result "x" "r" none []).2 "x" none) :=
  (claim_C5_amended "x" "r" none [] (by decide)).1

/-- Claim C4: a parse-phase ref call with a valid arity consults the manifest
in no way (the result is invariant in it), appends exactly one entry
recording package, name and version to the requesting node's reference list,
and returns a relation built for the requesting node itself. -/
theorem claim_C4 (m1 m2 : Manifest) (model : Node) (args : List String)
    (kwVersion kwV : Option String) :
    parseRefCall m1 model args kwVersion kwV = parseRefCall m2 model args kwVersion kwV
    ∧ (∀ n, args = [n] → parseRefCall m1 model args kwVersion kwV =
        .ok ({ model with refs := model.refs ++
            [RefArgs.mk none n (effectiveKwVersion kwVersion kwV)] },
          Relation.createFrom model.unique_id))
    ∧ (∀ p n, args = [p, n] → parseRefCall m1 model args kwVersion kwV =
        .ok ({ model with refs := model.refs ++
            [RefArgs.mk (some p) n (effectiveKwVersion kwVersion kwV)] },
          Relation.createFrom model.unique_id)) := by
  refine ⟨rfl, ?_, ?_⟩
  · rintro n rfl
    rfl
  · rintro p n rfl
    rfl

/-- Witness for C4 at a concrete two-argument parse-phase ref call. -/
theorem claim_C4_witness :
    parseRefCall manifestW nodeW ["pkg", "m"] none none =
      .ok ({ nodeW with refs := [RefArgs.mk (some "pkg") "m" none] },
        Relation.createFrom "model.proj.a") :=
  (claim_C4 manifestW manifestW nodeW ["pkg", "m"] none none).2.2 "pkg" "m" rfl

/-- Claim C8: a unit-test ref resolution never carries a row limit (the
unit-test resolver's limit is `None` even under the `--empty` flag) and
never carries an event-time filter, regardless of the target's event-time
configuration. -/
theorem claim_C8 (env : RuntimeEnv) (model : Node) (name : String)
    (package version : Option String) (nd : Node) (rel : Relation)
    (hkind : model.kind = NodeKind.unitTestNode)
    (hres : runtimeUnitTestRefResolve env model name package version = .ok (nd, rel)) :
    rel.limit = none ∧ rel.event_time_filter = none ∧
      runtimeUnitTest_resolve_limit env.cfg.args = none := by
  unfold runtimeUnitTestRefResolve runtimeRefResolveWith at hres
  split at hres
  · cases hres
  · cases hres
  · rename_i target heq
    split at hres
    · cases hres
    · split at hres
      · cases hres
      · split at hres
        · cases hres
        · have h2 : createRelation env (runtimeUnitTest_resolve_limit env.cfg.args)
              model target = (nd, rel) := by
            injection hres
          have hrel : rel = (createRelation env
              (runtimeUnitTest_resolve_limit env.cfg.args) model target).2 := by
            rw [h2]
          have hf := createRelation_fields env
            (runtimeUnitTest_resolve_limit env.cfg.args) model target
          refine ⟨?_, ?_, rfl⟩
          · rw [hrel, hf.1]; rfl
          · rw [hrel, hf.2]
            exact etf_none_of_not_model_or_snapshot _ _ _ _
              (by simp [hkind, isModelOrSnapshot])

/-- Witness for C8: a concrete unit-test resolution under the `--empty` flag
against a target that declares an event-time column. -/
theorem claim_C8_witness :
    modelC8.kind = NodeKind.unitTestNode
    ∧ envC8.cfg.args.EMPTY = true
    ∧ tgtC8.config.event_time = some "et"
    ∧ runtimeUnitTestRefResolve envC8 modelC8 "t" none none = .ok (modelC8, relC8)
    ∧ relC8.limit = none ∧ relC8.event_time_filter = none := by
  have h := claim_C8 envC8 modelC8 "t" none none modelC8 relC8 rfl rfl
  exact ⟨rfl, rfl, rfl, rfl, h.1, h.2.1⟩

theorem find?_name_eq (et : String) (cols : List ColumnInfo) :
    cols.find? (fun ci => decide (some ci.name = some et)) =
      cols.find? (fun ci => decide (ci.name = et)) := by
  induction cols with
  | nil => rfl
  | cons c cs ih =>
    simp only [List.find?]
    have h : (decide (some c.name = some et)) = decide (c.name = et) := by simp
    rw [h, ih]

/-- Counterexample to C1 as stated: at `tgtC1` the matching column's explicit
quote setting is present but false while the target's quoting-policy default
for columns is present and true; the claim's literal rule then quotes the
name, but the code returns it unquoted (the explicit column setting wins
even when it is false). -/
theorem claim_C1_counterexample :
    claimC1EventTimeFieldName tgtC1 = some (quotedName "et")
    ∧ resolve_event_time_field_name tgtC1 = some "et"
    ∧ resolve_event_time_field_name tgtC1 ≠ claimC1EventTimeFieldName tgtC1 := by
  refine ⟨rfl, rfl, ?_⟩
  decide

/-- Claim C1 (amended): the event-time filter field name is obtained by
scanning the target's declared columns for one matching the configured
event-time column name; when a matching entry exists, quoting is taken from
that column's explicit quote setting whenever that setting is present (true
or false); only when it is absent does the target's quoting-policy default
for columns apply; else the name is unquoted; when no matching entry exists,
the raw configured field name is returned unquoted. -/
theorem claim_C1_amended (target : Node) :
    resolve_event_time_field_name target = specEventTimeFieldName target := by
  cases het : target.config.event_time with
  | none =>
    simp only [resolve_event_time_field_name, specEventTimeFieldName, het]
    have hnone : target.columns.find?
        (fun ci => decide (some ci.name = (none : Option String))) = none := by
      apply List.find?_eq_none.mpr
      intro ci _
      simp
    rw [hnone]
  | some et =>
    simp only [resolve_event_time_field_name, specEventTimeFieldName, het]
    rw [find?_name_eq et target.columns]
    cases hfind : target.columns.find? (fun ci => decide (ci.name = et)) with
    | none => rfl
    | some ci =>
      have hname : ci.name = et := by
        have := List.find?_some hfind
        simpa using this
      rcases hciq : ci.quote with _ | b
      · cases hquoting : target.quoting with
        | none => simp [specQuoteCascade, hname, hciq, hquoting]
        | some q =>
          rcases hcol : q.column with _ | b2 <;>
            simp [specQuoteCascade, hname, hciq, hquoting, hcol]
      · simp [specQuoteCascade, hname, hciq]

theorem find?_append_split {α : Type} (p : α → Bool) (l1 l2 : List α) :
    (l1 ++ l2).find? p =
      (match l1.find? p with
       | some a => some a
       | none => l2.find? p) := by
  induction l1 with
  | nil => simp
  | cons a l ih =>
    simp only [List.cons_append, List.find?]
    cases p a <;> simp [ih]

theorem find?_over_map {α β : Type} (f : α → β) (p : β → Bool) (l : List α) :
    (l.map f).find? p = (l.find? (fun a => p (f a))).map f := by
  induction l with
  | nil => rfl
  | cons a l ih =>
    simp only [List.map_cons, List.find?]
    cases p (f a) <;> simp [ih]

theorem dispatchInnerLoop_none (lookup : Option String → String → Option String)
    (mn : String) (pkg : Option String) (pres : List String)
    (h : ∀ pre ∈ pres, lookup pkg (pre ++ "__" ++ mn) = none) :
    ∀ att, dispatchInnerLoop lookup mn pkg pres att =
      (none, att ++ pres.map (fun pre => attemptLabel pkg (pre ++ "__" ++ mn))) := by
  induction pres with
  | nil => intro att; simp [dispatchInnerLoop]
  | cons pre rest ih =>
    intro att
    have h0 : lookup pkg (pre ++ "__" ++ mn) = none := h pre (List.mem_cons_self _ _)
    simp only [dispatchInnerLoop, h0]
    rw [ih (fun q hq => h q (List.mem_cons_of_mem _ hq)) _]
    simp

theorem dispatchInnerLoop_found (lookup : Option String → String → Option String)
    (mn : String) (pkg : Option String) (pres : List String) (pre0 : String)
    (h : pres.find? (fun q => (lookup pkg (q ++ "__" ++ mn)).isSome) = some pre0) :
    ∀ att, (dispatchInnerLoop lookup mn pkg pres att).1 =
      lookup pkg (pre0 ++ "__" ++ mn) := by
  induction pres with
  | nil => cases h
  | cons p rest ih =>
    intro att
    by_cases hp : ((lookup pkg (p ++ "__" ++ mn)).isSome : Bool) = true
    · have hcons : (p :: rest).find?
          (fun q => (lookup pkg (q ++ "__" ++ mn)).isSome) = some p := by
        simp [List.find?, hp]
      rw [hcons] at h
      obtain rfl : p = pre0 := by injection h
      obtain ⟨m, hm⟩ := Option.isSome_iff_exists.mp hp
      simp [dispatchInnerLoop, hm]
    · have hnone : lookup pkg (p ++ "__" ++ mn) = none :=
        Option.not_isSome_iff_eq_none.mp (by simpa using hp)
      have hcons : (p :: rest).find?
          (fun q => (lookup pkg (q ++ "__" ++ mn)).isSome) =
            rest.find? (fun q => (lookup pkg (q ++ "__" ++ mn)).isSome) := by
        simp [List.find?, hnone]
      rw [hcons] at h
      simp only [dispatchInnerLoop, hnone]
      exact ih h _

theorem dispatchOuterLoop_none (lookup : Option String → String → Option String)
    (mn : String) (ns : Option String) (prefixList : List String)
    (pkgs : List (Option String))
    (h : ∀ pkg ∈ pkgs, ∀ pre ∈ prefixList, lookup pkg (pre ++ "__" ++ mn) = none) :
    ∀ att, dispatchOuterLoop lookup mn ns prefixList pkgs att =
      .error (.dispatchNotFound mn ns (att ++ pkgs.flatMap
        (fun pkg => prefixList.map (fun pre => attemptLabel pkg (pre ++ "__" ++ mn))))) := by
  induction pkgs with
  | nil => intro att; simp [dispatchOuterLoop]
  | cons pkg rest ih =>
    intro att
    simp only [dispatchOuterLoop,
      dispatchInnerLoop_none lookup mn pkg prefixList (h pkg (List.mem_cons_self _ _)) att]
    rw [ih (fun q hq => h q (List.mem_cons_of_mem _ hq)) _]
    simp

theorem dispatchOuterLoop_found (lookup : Option String → String → Option String)
    (mn : String) (ns : Option String) (prefixList : List String)
    (pkgs : List (Option String)) (pkg0 : Option String) (sn0 : String) (m : String)
    (h : (pkgs.flatMap (fun pkg => prefixList.map
        (fun pre => (pkg, pre ++ "__" ++ mn)))).find?
        (fun q => (lookup q.1 q.2).isSome) = some (pkg0, sn0))
    (hm : lookup pkg0 sn0 = some m) :
    ∀ att, dispatchOuterLoop lookup mn ns prefixList pkgs att = .ok m := by
  induction pkgs with
  | nil => cases h
  | cons pkg rest ih =>
    intro att
    rw [List.flatMap_cons, find?_append_split] at h
    cases hblk : ((prefixList.map (fun pre => (pkg, pre ++ "__" ++ mn))).find?
        (fun q => (lookup q.1 q.2).isSome)) with
    | some q =>
      rw [hblk] at h
      obtain rfl : q = (pkg0, sn0) := by injection h
      rw [find?_over_map] at hblk
      obtain ⟨pre0, hpre0, heq⟩ := Option.map_eq_some'.mp hblk
      have hpkg : pkg = pkg0 := congrArg Prod.fst heq
      have hsn : pre0 ++ "__" ++ mn = sn0 := congrArg Prod.snd heq
      have h2 : (dispatchInnerLoop lookup mn pkg prefixList att).1 = some m := by
        rw [dispatchInnerLoop_found lookup mn pkg prefixList pre0 hpre0 att, hsn, hpkg, hm]
      simp only [dispatchOuterLoop]
      rcases hres : dispatchInnerLoop lookup mn pkg prefixList att with ⟨r1, r2⟩
      rw [hres] at h2
      simp only at h2
      subst h2
      rfl
    | none =>
      rw [hblk] at h
      simp only at h
      have hall : ∀ pre ∈ prefixList, lookup pkg (pre ++ "__" ++ mn) = none := by
        intro pre hpre
        have hmem : (pkg, pre ++ "__" ++ mn) ∈
            prefixList.map (fun q => (pkg, q ++ "__" ++ mn)) :=
          List.mem_map_of_mem _ hpre
        have := List.find?_eq_none.mp hblk _ hmem
        simpa using this
      simp only [dispatchOuterLoop,
        dispatchInnerLoop_none lookup mn pkg prefixList hall att]
      exact ih h _

/-- Claim C6: `dispatch` rejects a macro name containing a dot with a
suggestion of the two-argument call form; otherwise it scans package-major,
prefix-minor over the (package, prefixed-name) combinations and
returns the first match; when no combination matches it fails with an error
enumerating every attempted pair. -/
theorem claim_C6 (ctx : DispatchCtx) (mn : String) (ns : Option String) :
    (containsDot mn = true → dispatch ctx mn ns none =
      .error (.dotInMacroName (splitOnFirstDot mn).1 (splitOnFirstDot mn).2))
    ∧ (containsDot mn = false →
      (∀ pkg0 sn0 m,
        (dispatchAttemptPairs ctx mn ns).find?
            (fun q => (ctx.getFromPackage q.1 q.2).isSome) = some (pkg0, sn0) →
        ctx.getFromPackage pkg0 sn0 = some m →
        dispatch ctx mn ns none = .ok m)
      ∧ ((dispatchAttemptPairs ctx mn ns).find?
            (fun q => (ctx.getFromPackage q.1 q.2).isSome) = none →
        dispatch ctx mn ns none =
          .error (.dispatchNotFound mn ns
            ((dispatchAttemptPairs ctx mn ns).map (fun q => attemptLabel q.1 q.2))))) := by
  refine ⟨?_, ?_⟩
  · intro hdot
    simp [dispatch, hdot]
  · intro hdot
    constructor
    · intro pkg0 sn0 m hfind hm
      simp only [dispatch, hdot, Bool.false_eq_true, if_false, Option.isSome_none, if_neg]
      exact dispatchOuterLoop_found ctx.getFromPackage mn ns _ _ pkg0 sn0 m hfind hm []
    · intro hfind
      have hall : ∀ pkg ∈ getSearchPackages ctx ns, ∀ pre ∈ adapterMacroPrefixList ctx,
          ctx.getFromPackage pkg (pre ++ "__" ++ mn) = none := by
        intro pkg hpkg pre hpre
        have hmem : (pkg, pre ++ "__" ++ mn) ∈ dispatchAttemptPairs ctx mn ns := by
          simp only [dispatchAttemptPairs, List.mem_flatMap]
          exact ⟨pkg, hpkg, List.mem_map_of_mem _ hpre⟩
        have := List.find?_eq_none.mp hfind _ hmem
        simpa using this
      simp only [dispatch, hdot, Bool.false_eq_true, if_false, Option.isSome_none, if_neg]
      rw [dispatchOuterLoop_none ctx.getFromPackage mn ns _ _ hall []]
      simp only [dispatchAttemptPairs, List.map_flatMap, List.map_map, List.nil_append]
      rfl

/-- Witness for C6: adapter type chain `postgres` then `default`, macro
implemented only as `default__m`; dispatch returns that implementation. -/
theorem claim_C6_witness :
    dispatch ctxC6 "m" none none = .ok "impl" := by
  have h := ((claim_C6 ctxC6 "m" none).2 (by decide)).1 none "default__m" "impl"
  exact h (by decide) (by decide)

theorem dictContains_append (d e : CDict) (k : String) :
    dictContains (d ++ e) k = (dictContains d k || dictContains e k) := by
  simp [dictContains, List.any_append]

theorem dictContains_remove_self (d : CDict) (k : String) :
    dictContains (dictRemove d k) k = false := by
  induction d with
  | nil => rfl
  | cons p rest ih =>
    by_cases h : (p.1 == k) = true
    · simp only [dictRemove, List.filter, h] at ih ⊢
      exact ih
    · simp only [Bool.not_eq_true] at h
      simp only [dictRemove, List.filter, h, Bool.not_false] at ih ⊢
      simp [dictContains, h, ih]

theorem dictContains_remove_other (d : CDict) (k k2 : String) (h : (k2 == k) = false) :
    dictContains (dictRemove d k) k2 = dictContains d k2 := by
  induction d with
  | nil => rfl
  | cons p rest ih =>
    simp only [dictContains, dictRemove] at ih
    by_cases hp : (p.1 == k) = true
    · have hpk : p.1 = k := by simpa using hp
      have h2 : (p.1 == k2) = false := by
        rw [hpk]
        simp only [beq_eq_false_iff_ne, ne_eq] at h ⊢
        exact fun he => h he.symm
      simp only [dictContains, dictRemove, List.filter, hp, Bool.not_true,
        List.any_cons, h2, Bool.false_or]
      exact ih
    · simp only [Bool.not_eq_true] at hp
      simp only [dictContains, dictRemove, List.filter, hp, Bool.not_false,
        List.any_cons]
      rw [ih]

theorem dictGet_exists (d : CDict) (k : String) (h : dictContains d k = true) :
    ∃ v, dictGet d k = some v := by
  induction d with
  | nil => cases h
  | cons p rest ih =>
    by_cases hp : (p.1 == k) = true
    · exact ⟨p.2, by simp [dictGet, List.find?, hp]⟩
    · simp only [Bool.not_eq_true] at hp
      have h2 : dictContains rest k = true := by
        simpa [dictContains, hp] using h
      obtain ⟨v, hv⟩ := ih h2
      exact ⟨v, by simpa [dictGet, List.find?, hp] using hv⟩

theorem transformHookKey_conflict (oldKey newKey nodeId : String) (d : CDict)
    (h1 : dictContains d oldKey = true) (h2 : dictContains d newKey = true) :
    transformHookKey oldKey newKey nodeId d =
      .error (.conflictingConfigKeys oldKey newKey nodeId) := by
  simp [transformHookKey, h1, h2]

theorem transformHookKey_ok_cases (oldKey newKey nodeId : String) (d d' : CDict)
    (h : transformHookKey oldKey newKey nodeId d = .ok d') :
    (dictContains d oldKey = false ∧ d' = d) ∨
      (∃ v, dictContains d oldKey = true ∧ dictContains d newKey = false ∧
        d' = dictRemove d oldKey ++ [(newKey, v)]) := by
  by_cases h1 : dictContains d oldKey = true
  · by_cases h2 : dictContains d newKey = true
    · rw [transformHookKey_conflict oldKey newKey nodeId d h1 h2] at h
      cases h
    · have h2f : dictContains d newKey = false := by simpa using h2
      obtain ⟨v, hv⟩ := dictGet_exists d oldKey h1
      right
      simp only [transformHookKey, h1, h2f, hv, if_true, Bool.false_eq_true, if_false] at h
      cases h
      exact ⟨v, h1, h2f, rfl⟩
  · have h1f : dictContains d oldKey = false := by simpa using h1
    left
    simp only [transformHookKey, h1f, Bool.false_eq_true, if_false] at h
    cases h
    exact ⟨h1f, rfl⟩

theorem transform_config_conflict_pre (nodeId : String) (d : CDict)
    (h1 : dictContains d "pre_hook" = true) (h2 : dictContains d "pre-hook" = true) :
    transform_config nodeId d =
      .error (.conflictingConfigKeys "pre_hook" "pre-hook" nodeId) := by
  simp [transform_config, transformHookKey_conflict _ _ nodeId d h1 h2]

theorem transform_config_conflict_post (nodeId : String) (d : CDict)
    (hnotpre : ¬(dictContains d "pre_hook" = true ∧ dictContains d "pre-hook" = true))
    (h1 : dictContains d "post_hook" = true) (h2 : dictContains d "post-hook" = true) :
    transform_config nodeId d =
      .error (.conflictingConfigKeys "post_hook" "post-hook" nodeId) := by
  by_cases hpre : dictContains d "pre_hook" = true
  · have hpreh : dictContains d "pre-hook" = false := by
      cases hph : dictContains d "pre-hook" with
      | false => rfl
      | true => exact absurd ⟨hpre, hph⟩ hnotpre
    obtain ⟨v, hv⟩ := dictGet_exists d "pre_hook" hpre
    have hd1 : transformHookKey "pre_hook" "pre-hook" nodeId d =
        .ok (dictRemove d "pre_hook" ++ [("pre-hook", v)]) := by
      simp [transformHookKey, hpre, hpreh, hv]
    have hc1 : dictContains (dictRemove d "pre_hook" ++ [("pre-hook", v)])
        "post_hook" = true := by
      rw [dictContains_append, dictContains_remove_other _ _ _ (by decide), h1]
      rfl
    have hc2 : dictContains (dictRemove d "pre_hook" ++ [("pre-hook", v)])
        "post-hook" = true := by
      rw [dictContains_append, dictContains_remove_other _ _ _ (by decide), h2]
      rfl
    simp only [transform_config, hd1]
    exact transformHookKey_conflict _ _ _ _ hc1 hc2
  · have hpref : dictContains d "pre_hook" = false := by simpa using hpre
    have hd1 : transformHookKey "pre_hook" "pre-hook" nodeId d = .ok d := by
      simp [transformHookKey, hpref]
    simp only [transform_config, hd1]
    exact transformHookKey_conflict _ _ _ _ h1 h2

theorem transform_config_normalizes_pre (nodeId : String) (d t : CDict)
    (h : transform_config nodeId d = .ok t)
    (hpre : dictContains d "pre_hook" = true) :
    dictContains t "pre_hook" = false ∧ dictContains t "pre-hook" = true := by
  cases h1 : transformHookKey "pre_hook" "pre-hook" nodeId d with
  | error e => simp [transform_config, h1] at h
  | ok d1 =>
    simp only [transform_config, h1] at h
    rcases transformHookKey_ok_cases _ _ _ _ _ h1 with ⟨hc, rfl⟩ | ⟨v, hc, hnc, rfl⟩
    · rw [hc] at hpre
      cases hpre
    · have hd1pre : dictContains (dictRemove d "pre_hook" ++ [("pre-hook", v)])
          "pre_hook" = false := by
        rw [dictContains_append, dictContains_remove_self]
        rfl
      have hd1preh : dictContains (dictRemove d "pre_hook" ++ [("pre-hook", v)])
          "pre-hook" = true := by
        rw [dictContains_append]
        simp [dictContains]
      rcases transformHookKey_ok_cases _ _ _ _ _ h with ⟨hc2, rfl⟩ | ⟨v2, hc2, hnc2, rfl⟩
      · exact ⟨hd1pre, hd1preh⟩
      · constructor
        · rw [dictContains_append, dictContains_remove_other _ _ _ (by decide), hd1pre]
          rfl
        · rw [dictContains_append, dictContains_remove_other _ _ _ (by decide), hd1preh]
          rfl

theorem transform_config_normalizes_post (nodeId : String) (d t : CDict)
    (h : transform_config nodeId d = .ok t)
    (hpost : dictContains d "post_hook" = true) :
    dictContains t "post_hook" = false ∧ dictContains t "post-hook" = true := by
  cases h1 : transformHookKey "pre_hook" "pre-hook" nodeId d with
  | error e => simp [transform_config, h1] at h
  | ok d1 =>
    simp only [transform_config, h1] at h
    have hd1post : dictContains d1 "post_hook" = true := by
      rcases transformHookKey_ok_cases _ _ _ _ _ h1 with ⟨hc, rfl⟩ | ⟨v, hc, hnc, rfl⟩
      · exact hpost
      · rw [dictContains_append, dictContains_remove_other _ _ _ (by decide), hpost]
        rfl
    rcases transformHookKey_ok_cases _ _ _ _ _ h with ⟨hc2, rfl⟩ | ⟨v2, hc2, hnc2, rfl⟩
    · rw [hc2] at hd1post
      cases hd1post
    · constructor
      · rw [dictContains_append, dictContains_remove_self]
        rfl
      · rw [dictContains_append]
        simp [dictContains]

/-- Claim C9: a parse-phase `config(...)` call with both positional and
keyword arguments, or with neither, raises a shape error naming the node;
supplying an underscore hook key together with its hyphenated spelling
raises a conflicting-keys error; otherwise the underscore spellings are
normalized to the hyphenated form, the options are appended to the node's
pending config calls, and the call returns the empty string. -/
theorem claim_C9 (nodeId : String) (cc : ContextConfig) (flag : Bool)
    (static : Option CDict) (args : List CDict) (kwargs : CDict) :
    ((args ≠ [] ∧ kwargs ≠ []) ∨ (args = [] ∧ kwargs = []) →
      parseConfigCall nodeId (some cc) flag static args kwargs =
        .error (.inlineModelConfig nodeId))
    ∧ (∀ opts, args = [opts] → kwargs = [] →
        dictContains opts "pre_hook" = true → dictContains opts "pre-hook" = true →
        parseConfigCall nodeId (some cc) flag static args kwargs =
          .error (.conflictingConfigKeys "pre_hook" "pre-hook" nodeId))
    ∧ (∀ opts, args = [opts] → kwargs = [] →
        ¬(dictContains opts "pre_hook" = true ∧ dictContains opts "pre-hook" = true) →
        dictContains opts "post_hook" = true → dictContains opts "post-hook" = true →
        parseConfigCall nodeId (some cc) flag static args kwargs =
          .error (.conflictingConfigKeys "post_hook" "post-hook" nodeId))
    ∧ (∀ opts t, args = [opts] → kwargs = [] →
        transform_config nodeId opts = .ok t →
        (dictContains opts "pre_hook" = true →
          dictContains t "pre_hook" = false ∧ dictContains t "pre-hook" = true)
        ∧ (dictContains opts "post_hook" = true →
          dictContains t "post_hook" = false ∧ dictContains t "post-hook" = true)
        ∧ ∃ cc2, parseConfigCall nodeId (some cc) flag static args kwargs =
            .ok ("", cc2) ∧ cc2.config_calls = cc.config_calls ++ [t]) := by
  refine ⟨?_, ?_, ?_, ?_⟩
  · rintro (⟨ha, hk⟩ | ⟨rfl, rfl⟩)
    · have h1 : (args.length == 1 && List.isEmpty kwargs) = false := by
        cases kwargs with
        | nil => exact absurd rfl hk
        | cons q qs => simp [List.isEmpty]
      have h2 : (args.isEmpty && !(List.isEmpty kwargs)) = false := by
        cases args with
        | nil => exact absurd rfl ha
        | cons q qs => simp [List.isEmpty]
      simp [parseConfigCall, h1, h2]
    · simp [parseConfigCall, List.isEmpty]
  · rintro opts rfl rfl h3 h4
    simp [parseConfigCall, List.isEmpty,
      transform_config_conflict_pre nodeId opts h3 h4]
  · rintro opts rfl rfl h3 h4 h5
    simp [parseConfigCall, List.isEmpty,
      transform_config_conflict_post nodeId opts h3 h4 h5]
  · rintro opts t rfl rfl htr
    refine ⟨fun hp => transform_config_normalizes_pre nodeId opts t htr hp,
      fun hp => transform_config_normalizes_post nodeId opts t htr hp, ?_⟩
    have hsel : (if ([opts] : List CDict).length == 1 && List.isEmpty ([] : CDict) then
          (Except.ok ([opts].headD []) : Except Err CDict)
        else if ([opts] : List CDict).isEmpty && !(List.isEmpty ([] : CDict)) then
          Except.ok []
        else Except.error (Err.inlineModelConfig nodeId)) = Except.ok opts := by
      simp [List.isEmpty]
    simp only [parseConfigCall, hsel, htr]
    refine ⟨_, rfl, ?_⟩
    cases flag with
    | false => rfl
    | true =>
      cases static with
      | none => rfl
      | some l =>
        cases l with
        | nil => rfl
        | cons u us => rfl

/-- Witness for C9: a mixed-shape call errors, a double-spelling call errors,
and a plain call accumulates the normalized options. -/
theorem claim_C9_witness :
    parseConfigCall "n" (some ccW) false none [[("a", "1")]] [("b", "2")] =
        .error (.inlineModelConfig "n")
    ∧ parseConfigCall "n" (some ccW) false none
        [[("pre_hook", "x"), ("pre-hook", "y")]] [] =
        .error (.conflictingConfigKeys "pre_hook" "pre-hook" "n")
    ∧ ∃ cc2, parseConfigCall "n" (some ccW) false none [[("pre_hook", "x")]] [] =
        .ok ("", cc2) ∧ cc2.config_calls = [[("pre-hook", "x")]] := by
  refine ⟨?_, ?_, ?_⟩
  · exact (claim_C9 "n" ccW false none [[("a", "1")]] [("b", "2")]).1
      (Or.inl ⟨by simp, by simp⟩)
  · exact (claim_C9 "n" ccW false none [[("pre_hook", "x"), ("pre-hook", "y")]] []).2.1
      [("pre_hook", "x"), ("pre-hook", "y")] rfl rfl (by decide) (by decide)
  · have h := ((claim_C9 "n" ccW false none [[("pre_hook", "x")]] []).2.2.2
      [("pre_hook", "x")] [("pre-hook", "x")] rfl rfl rfl).2.2
    obtain ⟨cc2, h1, h2⟩ := h
    exact ⟨cc2, h1, by simpa using h2⟩

end Dbt
